import Mathlib

/-
Verification of the Wind market-data adapter
(src/tradingagents_wind/tradingagents/dataflows/wind_utils.py).

The adapter's pure logic is shallowly embedded here:
symbol normalization (WindProvider._normalize_symbol), response reshaping
into tables, and the error-handling shapes of the five fetch operations
(get_stock_list, get_stock_daily, get_stock_info, get_financial_data,
search_stocks).  Remote Wind API calls are modelled by their responses
(an `Except` value: `.error` for a raised exception, `.ok` for a returned
payload), and each operation additionally reports how many remote calls
it performed.
-/

/-- Model of Python `symbol.replace("sh.", "")`: a left-to-right scan that
removes every non-overlapping occurrence of the three-character pattern
`s`,`h`,`.` and replaces it with nothing. -/
def pyReplaceSH : List Char → List Char
  | 's' :: 'h' :: '.' :: rest => pyReplaceSH rest
  | c :: cs => c :: pyReplaceSH cs
  | [] => []

/-- Model of Python `symbol.replace("sz.", "")`. -/
def pyReplaceSZ : List Char → List Char
  | 's' :: 'z' :: '.' :: rest => pyReplaceSZ rest
  | c :: cs => c :: pyReplaceSZ cs
  | [] => []

/-- Occurrence test: does `pat` occur as a contiguous subsequence of `s`?
(Python `pat in s`.) -/
def hasSeq (pat : List Char) : List Char → Bool
  | [] => pat.isEmpty
  | c :: cs => pat.isPrefixOf (c :: cs) || hasSeq pat cs

/-- The tag-stripping step of `_normalize_symbol`:
`symbol.replace('sh.', '').replace('sz.', '')` (first all `sh.`, then all
`sz.` occurrences). -/
def stripMarketTags (s : List Char) : List Char :=
  pyReplaceSZ (pyReplaceSH s)

/-- The exchange-suffix classification of `_normalize_symbol`:
`startswith('6')` gives `.SH`, `startswith(('0','3'))` gives `.SZ`,
`startswith('8')` gives `.BJ`, anything else defaults to `.SZ`. -/
def marketSuffix (s : List Char) : List Char :=
  if s.head? = some '6' then ['.', 'S', 'H']
  else if s.head? = some '0' ∨ s.head? = some '3' then ['.', 'S', 'Z']
  else if s.head? = some '8' then ['.', 'B', 'J']
  else ['.', 'S', 'Z']

/-- Core of `WindProvider._normalize_symbol` on character lists: strip the
lowercase market tags, return unchanged if a `.` remains, otherwise append
the exchange suffix chosen by the leading character. -/
def normalizeChars (s : List Char) : List Char :=
  let t := stripMarketTags s
  if '.' ∈ t then t else t ++ marketSuffix t

/-- WindProvider._normalize_symbol, embedded on `String`. -/
def _normalize_symbol (s : String) : String :=
  String.mk (normalizeChars s.data)

/-- A list with no occurrence of `sh.` is unchanged by the first replace. -/
theorem pyReplaceSH_id (s : List Char) (h : hasSeq ['s', 'h', '.'] s = false) :
    pyReplaceSH s = s := by
  induction s using pyReplaceSH.induct with
  | case1 rest => simp [hasSeq, List.isPrefixOf] at h
  | case2 c cs hne ih =>
    have h' : hasSeq ['s', 'h', '.'] cs = false := by
      simp [hasSeq] at h
      exact h.2
    rw [pyReplaceSH.eq_def]
    split
    · rename_i rest heq
      injection heq with h1 h2
      exact (hne rest h1 h2).elim
    · rename_i c2 cs2 hnm heq
      injection heq with h1 h2
      subst h1; subst h2
      rw [ih h']
    · rename_i heq
      exact List.noConfusion heq
  | case3 => rfl

/-- A list with no occurrence of `sz.` is unchanged by the second replace. -/
theorem pyReplaceSZ_id (s : List Char) (h : hasSeq ['s', 'z', '.'] s = false) :
    pyReplaceSZ s = s := by
  induction s using pyReplaceSZ.induct with
  | case1 rest => simp [hasSeq, List.isPrefixOf] at h
  | case2 c cs hne ih =>
    have h' : hasSeq ['s', 'z', '.'] cs = false := by
      simp [hasSeq] at h
      exact h.2
    rw [pyReplaceSZ.eq_def]
    split
    · rename_i rest heq
      injection heq with h1 h2
      exact (hne rest h1 h2).elim
    · rename_i c2 cs2 hnm heq
      injection heq with h1 h2
      subst h1; subst h2
      rw [ih h']
    · rename_i heq
      exact List.noConfusion heq
  | case3 => rfl

/-- A list containing neither `sh.` nor `sz.` is unchanged by tag stripping. -/
theorem stripMarketTags_id (s : List Char)
    (hsh : hasSeq ['s', 'h', '.'] s = false)
    (hsz : hasSeq ['s', 'z', '.'] s = false) :
    stripMarketTags s = s := by
  unfold stripMarketTags
  rw [pyReplaceSH_id s hsh, pyReplaceSZ_id s hsz]

/-- Every exchange suffix contains the separator dot. -/
theorem dot_mem_marketSuffix (s : List Char) : '.' ∈ marketSuffix s := by
  unfold marketSuffix
  split
  · decide
  · split
    · decide
    · split
      · decide
      · decide

/-- Every output of the normalizer contains a dot. -/
theorem dot_mem_normalizeChars (s : List Char) : '.' ∈ normalizeChars s := by
  unfold normalizeChars
  by_cases h : '.' ∈ stripMarketTags s
  · simp [h]
  · simp only [h, if_false]
    exact List.mem_append_right _ (dot_mem_marketSuffix _)

/-- C2: for every input with no `.` separator left after tag stripping,
`_normalize_symbol` appends exactly one market suffix determined by the
leading character (`6` gives `.SH`; `0` or `3` gives `.SZ`; `8` gives `.BJ`;
any other leading character gives `.SZ`), totally and deterministically;
in particular `"000001"` maps to `"000001.SZ"`, `"600000"` to `"600000.SH"`
and `"830001"` to `"830001.BJ"`. -/
theorem normalize_appends_suffix_by_leading_char (s : List Char)
    (h : '.' ∉ stripMarketTags s) :
    (∃ suf, normalizeChars s = stripMarketTags s ++ suf ∧
      ((stripMarketTags s).head? = some '6' → suf = ['.', 'S', 'H']) ∧
      (((stripMarketTags s).head? = some '0' ∨ (stripMarketTags s).head? = some '3') →
        suf = ['.', 'S', 'Z']) ∧
      ((stripMarketTags s).head? = some '8' → suf = ['.', 'B', 'J']) ∧
      (∀ c, (stripMarketTags s).head? = some c →
        c ≠ '6' → c ≠ '0' → c ≠ '3' → c ≠ '8' → suf = ['.', 'S', 'Z'])) ∧
    _normalize_symbol "000001" = "000001.SZ" ∧
    _normalize_symbol "600000" = "600000.SH" ∧
    _normalize_symbol "830001" = "830001.BJ" := by
  refine ⟨⟨marketSuffix (stripMarketTags s), ?_, ?_, ?_, ?_, ?_⟩,
    by decide, by decide, by decide⟩
  · simp [normalizeChars, h]
  · intro h6
    simp [marketSuffix, h6]
  · intro h03
    rcases h03 with h0 | h3
    · simp [marketSuffix, h0]
    · simp [marketSuffix, h3]
  · intro h8
    simp [marketSuffix, h8]
  · intro c hc h6 h0 h3 h8
    simp [marketSuffix, hc, h6, h0, h3, h8]

/-- C2 witness: the theorem applied at `"000001"`. -/
theorem normalize_appends_suffix_by_leading_char_witness :
    ('.' ∉ stripMarketTags "000001".data) ∧
    _normalize_symbol "000001" = "000001.SZ" :=
  ⟨by decide,
    (normalize_appends_suffix_by_leading_char "000001".data (by decide)).2.1⟩

/-- C3 counterexample: `"sz.000001"` contains a `.` separator, yet
`_normalize_symbol` does not return it unchanged (the global tag replace
fires first), refuting identity on all dotted inputs. -/
theorem normalize_not_identity_on_dotted :
    ('.' ∈ "sz.000001".data) ∧
    _normalize_symbol "sz.000001" = "000001.SZ" ∧
    _normalize_symbol "sz.000001" ≠ "sz.000001" := by
  refine ⟨by decide, by decide, by decide⟩

/-- C3 (amended): for every input string that contains a `.` separator and
contains no occurrence of the substrings `sh.` or `sz.`, `_normalize_symbol`
is the identity; e.g. `normalize("000001.SZ") = "000001.SZ"`. -/
theorem normalize_identity_on_dotted_tag_free (s : String)
    (hsh : hasSeq ['s', 'h', '.'] s.data = false)
    (hsz : hasSeq ['s', 'z', '.'] s.data = false)
    (hdot : '.' ∈ s.data) :
    _normalize_symbol s = s := by
  cases s with
  | mk d =>
    simp only [_normalize_symbol] at *
    rw [normalizeChars, stripMarketTags_id d hsh hsz]
    simp [hdot]

/-- C3 (amended) witness: the theorem applied at `"000001.SZ"`. -/
theorem normalize_identity_on_dotted_tag_free_witness :
    _normalize_symbol "000001.SZ" = "000001.SZ" :=
  normalize_identity_on_dotted_tag_free "000001.SZ" (by decide) (by decide)
    (by decide)

/-- C4 counterexample: in `"0sz.1"` the substring `sz.` does not occur at the
start, yet tag stripping removes it, so it is not left intact; the whole
normalization maps `"0sz.1"` to `"01.SZ"`. -/
theorem strip_removes_inner_tag :
    stripMarketTags "0sz.1".data = "01".data ∧
    List.isPrefixOf "sz.".data "0sz.1".data = false ∧
    List.isPrefixOf "sh.".data "0sz.1".data = false ∧
    _normalize_symbol "0sz.1" = "01.SZ" := by
  refine ⟨by decide, by decide, by decide, by decide⟩

/-- C4 (amended): the substrings `sh.` and `sz.` are removed at every
occurrence in the input (a global replacement, first all `sh.` then all
`sz.`), not only at the start; in particular a leading tag is stripped
before suffix classification, so `normalize("sz.000001") = "000001.SZ"`. -/
theorem strip_is_global_replacement :
    (∀ rest : List Char,
      stripMarketTags ('s' :: 'h' :: '.' :: rest) = stripMarketTags rest) ∧
    (∀ rest : List Char,
      stripMarketTags ('s' :: 'z' :: '.' :: rest) = stripMarketTags rest) ∧
    _normalize_symbol "sz.000001" = "000001.SZ" ∧
    _normalize_symbol "0sz.1" ≠ "0sz.1" := by
  refine ⟨?_, ?_, by decide, by decide⟩
  · intro rest
    unfold stripMarketTags
    rw [show pyReplaceSH ('s' :: 'h' :: '.' :: rest) = pyReplaceSH rest from by
      rw [pyReplaceSH]]
  · intro rest
    unfold stripMarketTags
    rw [show pyReplaceSH ('s' :: 'z' :: '.' :: rest) =
        's' :: 'z' :: '.' :: pyReplaceSH rest from by
      rw [pyReplaceSH.eq_def]
      simp
      rw [pyReplaceSH.eq_def]
      simp
      rw [pyReplaceSH.eq_def]
      simp]
    rw [show pyReplaceSZ ('s' :: 'z' :: '.' :: pyReplaceSH rest) =
        pyReplaceSZ (pyReplaceSH rest) from by rw [pyReplaceSZ]]

/-- C9 counterexample: `_normalize_symbol` is not idempotent; on `"6sh"` the
first pass yields `"6sh.SH"`, whose `sh.` substring is stripped by the
second pass, which then appends a fresh suffix. -/
theorem normalize_not_idempotent :
    _normalize_symbol "6sh" = "6sh.SH" ∧
    _normalize_symbol (_normalize_symbol "6sh") = "6SH.SH" ∧
    _normalize_symbol (_normalize_symbol "6sh") ≠ _normalize_symbol "6sh" := by
  refine ⟨by decide, by decide, by decide⟩

/-- C9 (amended): `_normalize_symbol` is idempotent on every input whose
normalized output contains no occurrence of `sh.` or `sz.` (every output
does contain a `.`, so the second application then returns it unchanged);
outputs that re-form a lowercase tag violate idempotence. -/
theorem normalize_idempotent_of_tag_free_output (s : String)
    (hsh : hasSeq ['s', 'h', '.'] (normalizeChars s.data) = false)
    (hsz : hasSeq ['s', 'z', '.'] (normalizeChars s.data) = false) :
    _normalize_symbol (_normalize_symbol s) = _normalize_symbol s := by
  simp only [_normalize_symbol]
  rw [show normalizeChars (normalizeChars s.data) = normalizeChars s.data from by
    rw [normalizeChars, stripMarketTags_id _ hsh hsz]
    simp [dot_mem_normalizeChars]]

/-- C9 (amended) witness: the theorem applied at `"000001"`. -/
theorem normalize_idempotent_of_tag_free_output_witness :
    _normalize_symbol (_normalize_symbol "000001") = _normalize_symbol "000001" :=
  normalize_idempotent_of_tag_free_output "000001" (by decide) (by decide)

/-- Tabular result: named columns in order, each holding one cell value per
row, mirroring the pandas DataFrame shapes the adapter builds.  The adapter
only moves cells around, so cells are plain strings. -/
structure DataFrame where
  cols : List (String × List String)
  deriving DecidableEq

/-- The empty table `pd.DataFrame()`. -/
def emptyDF : DataFrame := ⟨[]⟩

/-- Column lookup `df[n]`, `none` when the column is absent. -/
def getCol (df : DataFrame) (n : String) : Option (List String) :=
  (df.cols.find? (fun p => p.1 == n)).map Prod.snd

/-- Column membership `n in df.columns`. -/
def hasCol (df : DataFrame) (n : String) : Bool :=
  df.cols.any (fun p => p.1 == n)

/-- pandas column assignment `df[n] = v`: replace the column in place when
the name exists, otherwise append it on the right. -/
def setCol (df : DataFrame) (n : String) (v : List String) : DataFrame :=
  if hasCol df n then ⟨df.cols.map (fun p => if p.1 == n then (n, v) else p)⟩
  else ⟨df.cols ++ [(n, v)]⟩

/-- Number of rows: the length of the first column (the adapter's tables
are built with equal-length columns). -/
def rowCount (df : DataFrame) : Nat :=
  match df.cols with
  | [] => 0
  | (_, v) :: _ => v.length

/-- pandas `df.empty`: true when the table has no columns or no rows. -/
def dfIsEmpty (df : DataFrame) : Bool :=
  match df.cols with
  | [] => true
  | (_, v) :: _ => v.isEmpty

/-- A raised Python exception, reduced to its message. -/
abbrev PyErr := String

/-- A response of the vendor SDK: status code, columnar payload (one list
of cells per requested field, `none` for Python `None`), the parallel list
of field names, and the timestamps of a time-series call. -/
structure WindData where
  errorCode : Int
  data : Option (List (List String))
  fields : List String
  times : List String
  deriving DecidableEq

/-- Reshaping `pd.DataFrame(wind_data.Data).T` followed by
`columns = wind_data.Fields`: one named column per vendor field. -/
def windToDF (fields : List String) (dcols : List (List String)) : DataFrame :=
  ⟨fields.zip dcols⟩

/-- Row mapping (field name to cell), as produced by `to_dict('records')`. -/
abbrev Row := List (String × String)

/-- pandas `df.to_dict('records')`: one mapping per row. -/
def toRecords (df : DataFrame) : List Row :=
  (List.range (rowCount df)).map (fun i =>
    df.cols.map (fun p => (p.1, p.2.getD i "")))

/-- Python dict assignment `d[k] = v` on an insertion-ordered mapping:
replace in place when the key exists, otherwise append. -/
def dictSet {α : Type} (d : List (String × α)) (k : String) (v : α) :
    List (String × α) :=
  if d.any (fun p => p.1 == k) then
    d.map (fun p => if p.1 == k then (k, v) else p)
  else d ++ [(k, v)]

/-- Python dict lookup `d.get(k)`. -/
def dictGet {α : Type} (d : List (String × α)) (k : String) : Option α :=
  (d.find? (fun p => p.1 == k)).map Prod.snd

/-- Column-translation table of `get_stock_list`. -/
def stockListColumnMapping : List (String × String) :=
  [("WIND_CODE", "ts_code"), ("SEC_NAME", "name"), ("TRADE_STATUS", "list_status"),
   ("IPO_DATE", "list_date"), ("PROVINCE", "area"), ("SEC_TYPE", "market"),
   ("LISTING_BOARD", "industry"), ("EXCHANGE", "exchange")]

/-- Column-translation table of `get_stock_daily`. -/
def dailyColumnMapping : List (String × String) :=
  [("OPEN", "open"), ("HIGH", "high"), ("LOW", "low"), ("CLOSE", "close"),
   ("PRE_CLOSE", "pre_close"), ("CHG", "change"), ("PCT_CHG", "pct_chg"),
   ("VOLUME", "vol"), ("AMT", "amount")]

/-- The renaming loop `for old, new in mapping: if old in df.columns:
df[new] = df[old]` — an additive translation, not an in-place rename. -/
def applyColumnMapping (m : List (String × String)) (df : DataFrame) : DataFrame :=
  m.foldl (fun d p =>
    match getCol d p.1 with
    | some v => setCol d p.2 v
    | none => d) df

/-- pandas `.str.split('.').str[0]`: the part before the first dot. -/
def beforeDot (s : String) : String :=
  String.mk (s.data.takeWhile (fun c => c != '.'))

/-- The remote branch of `get_stock_list`: call `w.wset`, reshape, translate
columns and derive the bare-code `symbol` column from `ts_code`; the counter
records that one remote call was performed. -/
def fetchStockList (resp : Except PyErr WindData) : DataFrame × Nat :=
  match resp with
  | .error _ => (emptyDF, 1)
  | .ok wd =>
    if wd.errorCode ≠ 0 then (emptyDF, 1)
    else
      match wd.data with
      | none => (emptyDF, 1)
      | some dcols =>
        let sl := windToDF wd.fields dcols
        if !(dfIsEmpty sl) then
          let sl := applyColumnMapping stockListColumnMapping sl
          let sl :=
            match getCol sl "ts_code" with
            | some v => setCol sl "symbol" (v.map beforeDot)
            | none => sl
          (sl, 1)
        else (emptyDF, 1)

/-- WindProvider.get_stock_list: the connection check is modelled by its
boolean outcome, the cache by the optionally loaded table (used only when
non-empty), and the remote call by its response.  The second component
counts remote data calls performed. -/
def get_stock_list (connOk : Bool) (cached : Option DataFrame)
    (resp : Except PyErr WindData) : DataFrame × Nat :=
  if !connOk then (emptyDF, 0)
  else
    match cached with
    | some c => if !(dfIsEmpty c) then (c, 0) else fetchStockList resp
    | none => fetchStockList resp

/-- Reshape of a non-empty daily-bars payload: transpose with the vendor
field names, translate columns additively, attach the scalar `ts_code`
column, and surface the time index as a leading `trade_date` column
(pandas `reset_index`). -/
def reshapeDaily (wd : WindData) (dcols : List (List String))
    (windCode : String) : DataFrame :=
  let d := windToDF wd.fields dcols
  let d := applyColumnMapping dailyColumnMapping d
  let d := setCol d "ts_code" (List.replicate (rowCount d) windCode)
  ⟨("trade_date", wd.times) :: d.cols⟩

/-- WindProvider.get_stock_daily: the `w.wsd` call is modelled by its
response (the optional start and end dates only parameterize that call). -/
def get_stock_daily (connOk : Bool) (resp : Except PyErr WindData)
    (symbol : String) : DataFrame × Nat :=
  if !connOk then (emptyDF, 0)
  else
    match resp with
    | .error _ => (emptyDF, 1)
    | .ok wd =>
      if wd.errorCode ≠ 0 then (emptyDF, 1)
      else
        match wd.data with
        | none => (emptyDF, 1)
        | some dcols =>
          if dcols.length > 0 then
            (reshapeDaily wd dcols (_normalize_symbol symbol), 1)
          else (emptyDF, 1)

/-- Placeholder company name `股票<symbol>` used by the adapter. -/
def placeholderName (symbol : String) : String := "股票" ++ symbol

/-- pandas `Series.get(key, default)` on the first row of a table. -/
def rowGet (row : List (String × String)) (k : String) (dflt : String) : String :=
  match (row.find? (fun p => p.1 == k)).map Prod.snd with
  | some v => v
  | none => dflt

/-- WindProvider.get_stock_info: a point-in-time metadata mapping; on
disconnection or a raised call the reduced mapping is tagged `wind_error`,
on a failed or empty payload it is tagged `wind`. -/
def get_stock_info (connOk : Bool) (resp : Except PyErr WindData)
    (symbol : String) : List (String × String) × Nat :=
  if !connOk then
    ([("symbol", symbol), ("name", placeholderName symbol),
      ("source", "wind_error")], 0)
  else
    match resp with
    | .error _ =>
      ([("symbol", symbol), ("name", placeholderName symbol),
        ("source", "wind_error")], 1)
    | .ok wd =>
      match wd.data with
      | some dcols =>
        if wd.errorCode = 0 then
          let df := windToDF wd.fields dcols
          if !(dfIsEmpty df) then
            let row : List (String × String) :=
              df.cols.map (fun p => (p.1, p.2.getD 0 ""))
            ([("symbol", symbol),
              ("code", rowGet row "TRADE_CODE" symbol),
              ("name", rowGet row "SEC_NAME" (placeholderName symbol)),
              ("area", rowGet row "PROVINCE" "未知"),
              ("industry", rowGet row "WICSNAME2024" "未知"),
              ("market", rowGet row "MKT" "未知"),
              ("list_date", rowGet row "IPO_DATE" "未知"),
              ("source", "wind")], 1)
          else
            ([("symbol", symbol), ("name", placeholderName symbol),
              ("source", "wind")], 1)
        else
          ([("symbol", symbol), ("name", placeholderName symbol),
            ("source", "wind")], 1)
      | none =>
        ([("symbol", symbol), ("name", placeholderName symbol),
          ("source", "wind")], 1)

/-- One financial-statement block of `get_financial_data`: a raised call, a
non-zero status, or missing data resolves the statement to an empty
sequence; otherwise it resolves to the fetched rows
(`df.to_dict('records')`). -/
def statementRows (resp : Except PyErr WindData) : List Row :=
  match resp with
  | .error _ => []
  | .ok wd =>
    match wd.data with
    | none => []
    | some dcols =>
      if wd.errorCode = 0 then toRecords (windToDF wd.fields dcols) else []

/-- WindProvider.get_financial_data: on a failed connection check the empty
mapping; otherwise the three statements are fetched by three independent
`w.wss` calls, each guarded by its own handler, and stored under their keys
in insertion order. -/
def get_financial_data (connOk : Bool)
    (respBalance respIncome respCash : Except PyErr WindData) :
    List (String × List Row) × Nat :=
  if !connOk then ([], 0)
  else
    let fin : List (String × List Row) := []
    let fin := dictSet fin "balance_sheet" (statementRows respBalance)
    let fin := dictSet fin "income_statement" (statementRows respIncome)
    let fin := dictSet fin "cash_flow" (statementRows respCash)
    (fin, 3)

/-- Token of the regular-expression fragment used by keyword search: pandas
`Series.str.contains(keyword, na=False)` compiles the keyword as a regular
expression (`regex=True` is the default) and tests it with `re.search`.
The dot metacharacter matches any character; a non-metacharacter matches
itself.  The model is faithful for keywords containing no metacharacter
other than the dot. -/
inductive RTok
  | lit (c : Char)
  | anyc
  deriving DecidableEq

/-- Compile a keyword into tokens of the fragment above. -/
def parsePat (kw : List Char) : List RTok :=
  kw.map (fun c => if c = '.' then RTok.anyc else RTok.lit c)

/-- Anchored match of a token list against a prefix of the text. -/
def reMatchHere : List RTok → List Char → Bool
  | [], _ => true
  | _ :: _, [] => false
  | t :: ps, c :: cs =>
    (match t with
     | RTok.anyc => true
     | RTok.lit a => a == c) && reMatchHere ps cs

/-- Python `re.search`: the token list matches at some position. -/
def reSearch (pat : List RTok) : List Char → Bool
  | [] => reMatchHere pat []
  | c :: cs => reMatchHere pat (c :: cs) || reSearch pat cs

/-- pandas `Series.str.contains(keyword, na=False)` on a single cell. -/
def pdStrContains (kw cell : String) : Bool :=
  reSearch (parsePat kw.data) cell.data

/-- Case-sensitive substring containment (the relation named by the spec). -/
def strContainsSub (cell kw : String) : Bool :=
  hasSeq kw.data cell.data

/-- Characters with a special meaning in Python regular expressions. -/
def regexMetaChars : List Char :=
  ['.', '^', '$', '*', '+', '?', '\x7b', '\x7d', '[', ']', '\\', '|', '(', ')']

/-- Cell test of the search mask on one column at row `i` (`na=False`:
a missing cell matches nothing). -/
def colCellMatches (vals : List String) (kw : String) (i : Nat) : Bool :=
  match vals[i]? with
  | some v => pdStrContains kw v
  | none => false

/-- Boolean row filtering `df[mask]`. -/
def filterRows (df : DataFrame) (mask : List Bool) : DataFrame :=
  ⟨df.cols.map (fun p => (p.1,
    (p.2.zip mask).filterMap (fun q => if q.2 then some q.1 else none)))⟩

/-- WindProvider.search_stocks: fetch the symbol list (same modelled
connection outcome and environment), return empty when it is empty, and
otherwise keep the rows whose `name`, `symbol` or `ts_code` cell matches
the keyword; a missing column raises a KeyError that the enclosing handler
converts to an empty table. -/
def search_stocks (connOk : Bool) (cached : Option DataFrame)
    (resp : Except PyErr WindData) (keyword : String) : DataFrame × Nat :=
  if !connOk then (emptyDF, 0)
  else
    let r := get_stock_list connOk cached resp
    if dfIsEmpty r.1 then (emptyDF, r.2)
    else
      match getCol r.1 "name", getCol r.1 "symbol", getCol r.1 "ts_code" with
      | some ns, some ss, some ts =>
        let mask := (List.range (rowCount r.1)).map (fun i =>
          colCellMatches ns keyword i || colCellMatches ss keyword i ||
            colCellMatches ts keyword i)
        (filterRows r.1 mask, r.2)
      | _, _, _ => (emptyDF, r.2)

/-- Substring test of the spec on one cell of a named column. -/
def specCellMatches (sl : DataFrame) (n : String) (kw : String) (i : Nat) : Bool :=
  match getCol sl n with
  | some vs =>
    match vs[i]? with
    | some v => strContainsSub v kw
    | none => false
  | none => false

/-- Follows the spec's words for keyword search: the subset of rows of the
symbol-list table whose name, bare code or qualified code contains the
keyword as a case-sensitive substring. -/
def searchSpecFilter (sl : DataFrame) (kw : String) : DataFrame :=
  filterRows sl ((List.range (rowCount sl)).map (fun i =>
    specCellMatches sl "name" kw i || specCellMatches sl "symbol" kw i ||
      specCellMatches sl "ts_code" kw i))

/-- Anchored matching of an all-literal token list is the prefix test. -/
theorem reMatchHere_lits (p s : List Char) :
    reMatchHere (p.map RTok.lit) s = p.isPrefixOf s := by
  induction p generalizing s with
  | nil => cases s <;> simp [reMatchHere, List.isPrefixOf]
  | cons a ps ih =>
    cases s with
    | nil => simp [reMatchHere, List.isPrefixOf]
    | cons c cs => simp [reMatchHere, List.isPrefixOf, ih]

/-- Searching an all-literal token list is the substring-occurrence test. -/
theorem reSearch_lits (p s : List Char) :
    reSearch (p.map RTok.lit) s = hasSeq p s := by
  induction s with
  | nil =>
    cases p <;> simp [reSearch, reMatchHere, hasSeq, List.isPrefixOf]
  | cons c cs ih => simp [reSearch, hasSeq, reMatchHere_lits, ih]

/-- A dot-free keyword compiles to all-literal tokens. -/
theorem parsePat_dot_free (kw : List Char) (h : '.' ∉ kw) :
    parsePat kw = kw.map RTok.lit := by
  unfold parsePat
  apply List.map_congr_left
  intro a ha
  have : a ≠ '.' := fun hc => h (hc ▸ ha)
  simp [this]

/-- On metacharacter-free keywords the pandas matcher is plain substring
containment. -/
theorem pdStrContains_eq_sub (kw cell : String)
    (h : ∀ c ∈ kw.data, c ∉ regexMetaChars) :
    pdStrContains kw cell = strContainsSub cell kw := by
  have hdot : '.' ∉ kw.data := fun hc => (h '.' hc) (by decide)
  unfold pdStrContains strContainsSub
  rw [parsePat_dot_free kw.data hdot, reSearch_lits]

/-- A present column makes `getCol` succeed. -/
theorem getCol_of_hasCol (df : DataFrame) (n : String) (h : hasCol df n = true) :
    ∃ v, getCol df n = some v := by
  unfold hasCol at h
  unfold getCol
  have : (df.cols.find? (fun p => p.1 == n)).isSome := by
    rw [List.find?_isSome]
    simpa [List.any_eq_true] using h
  cases hf : df.cols.find? (fun p => p.1 == n) with
  | none => rw [hf] at this; exact absurd this (by simp)
  | some p => exact ⟨p.2, by simp [hf]⟩

/-- C1: when the connection check fails, every fetch operation returns its
declared empty or placeholder shape with zero remote data calls performed;
being total functions, the operations raise nothing. -/
theorem ops_degrade_without_connection :
    (∀ cached resp, get_stock_list false cached resp = (emptyDF, 0)) ∧
    (∀ resp symbol, get_stock_daily false resp symbol = (emptyDF, 0)) ∧
    (∀ resp symbol, get_stock_info false resp symbol =
      ([("symbol", symbol), ("name", placeholderName symbol),
        ("source", "wind_error")], 0)) ∧
    (∀ rB rI rC, get_financial_data false rB rI rC = ([], 0)) ∧
    (∀ cached resp kw, search_stocks false cached resp kw = (emptyDF, 0)) :=
  ⟨fun _ _ => rfl, fun _ _ => rfl, fun _ _ => rfl, fun _ _ _ => rfl,
    fun _ _ _ => rfl⟩

/-- C5: with a live connection each financial statement is fetched
independently — the snapshot entry under each key is a function of that
statement's own response alone; a raised call, non-zero status, or missing
data resolves that entry to the empty sequence, while a successful
statement's entry holds the fetched row mappings. -/
theorem financial_statements_independent (rB rI rC : Except PyErr WindData) :
    dictGet (get_financial_data true rB rI rC).1 "balance_sheet" =
      some (statementRows rB) ∧
    dictGet (get_financial_data true rB rI rC).1 "income_statement" =
      some (statementRows rI) ∧
    dictGet (get_financial_data true rB rI rC).1 "cash_flow" =
      some (statementRows rC) ∧
    (∀ e : PyErr, statementRows (Except.error e) = []) ∧
    (∀ wd : WindData, wd.errorCode ≠ 0 → statementRows (Except.ok wd) = []) ∧
    (∀ wd : WindData, wd.data = none → statementRows (Except.ok wd) = []) ∧
    (∀ wd dcols, wd.errorCode = 0 → wd.data = some dcols →
      statementRows (Except.ok wd) = toRecords (windToDF wd.fields dcols)) := by
  have e1 : (("balance_sheet" : String) == "income_statement") = false := by decide
  have e2 : (("balance_sheet" : String) == "cash_flow") = false := by decide
  have e3 : (("income_statement" : String) == "cash_flow") = false := by decide
  have e4 : (("income_statement" : String) == "balance_sheet") = false := by decide
  have e5 : (("cash_flow" : String) == "balance_sheet") = false := by decide
  have e6 : (("cash_flow" : String) == "income_statement") = false := by decide
  refine ⟨?_, ?_, ?_, fun _ => rfl, ?_, ?_, ?_⟩
  · simp [get_financial_data, dictSet, dictGet, e1, e2, e4, e5]
  · simp [get_financial_data, dictSet, dictGet, e1, e2, e4, e5, e6]
  · simp [get_financial_data, dictSet, dictGet, e1, e2, e3, e5, e6]
  · intro wd h
    cases hd : wd.data <;> simp [statementRows, hd, h]
  · intro wd h
    simp [statementRows, h]
  · intro wd dcols hc hd
    simp [statementRows, hd, hc]

/-- C5 witness: the theorem at one concrete mixed outcome — the balance
sheet call raises, the other two statements succeed with one row each. -/
theorem financial_statements_independent_witness :
    dictGet (get_financial_data true (Except.error "remote call failed")
      (Except.ok ⟨0, some [["600000"], ["Banks"]],
        ["TRADE_CODE", "WICSNAME2024"], []⟩)
      (Except.ok ⟨0, some [["600000"]], ["TRADE_CODE"], []⟩)).1
      "balance_sheet" = some [] ∧
    dictGet (get_financial_data true (Except.error "remote call failed")
      (Except.ok ⟨0, some [["600000"], ["Banks"]],
        ["TRADE_CODE", "WICSNAME2024"], []⟩)
      (Except.ok ⟨0, some [["600000"]], ["TRADE_CODE"], []⟩)).1
      "income_statement" =
        some [[("TRADE_CODE", "600000"), ("WICSNAME2024", "Banks")]] ∧
    dictGet (get_financial_data true (Except.error "remote call failed")
      (Except.ok ⟨0, some [["600000"], ["Banks"]],
        ["TRADE_CODE", "WICSNAME2024"], []⟩)
      (Except.ok ⟨0, some [["600000"]], ["TRADE_CODE"], []⟩)).1
      "cash_flow" = some [[("TRADE_CODE", "600000")]] ∧
    statementRows (Except.ok ⟨(-40522 : Int), some [["x"]], ["F"], []⟩) = [] := by
  have h := financial_statements_independent (Except.error "remote call failed")
    (Except.ok ⟨0, some [["600000"], ["Banks"]], ["TRADE_CODE", "WICSNAME2024"], []⟩)
    (Except.ok ⟨0, some [["600000"]], ["TRADE_CODE"], []⟩)
  refine ⟨?_, ?_, ?_, h.2.2.2.2.1 _ (by decide)⟩
  · rw [h.1]; decide
  · rw [h.2.1]; decide
  · rw [h.2.2.1]; decide

/-- C6 counterexample: on disconnection `get_stock_info` returns a reduced
three-key mapping; the keys `code`, `area`, `industry`, `market` and
`list_date` of the success shape are absent, so the failure mapping does not
carry all the keys the claim lists. -/
theorem info_failure_mapping_lacks_keys :
    (get_stock_info false (Except.error "no session") "000001").1 =
      [("symbol", "000001"), ("name", "股票000001"), ("source", "wind_error")] ∧
    dictGet (get_stock_info false (Except.error "no session") "000001").1
      "code" = none ∧
    dictGet (get_stock_info false (Except.error "no session") "000001").1
      "list_date" = none := by
  refine ⟨by decide, by decide, by decide⟩

/-- C6 (amended): on disconnection or a raised remote call `get_stock_info`
returns the reduced mapping with exactly the keys symbol, name, source —
the name being the placeholder 股票 followed by the symbol and the source
tag `wind_error` — and on a non-zero remote status, missing data, or an
empty payload the same reduced mapping tagged `wind`; the operation is a
total function and never raises. -/
theorem info_failure_reduced_mapping (symbol : String) :
    (∀ resp, (get_stock_info false resp symbol).1 =
      [("symbol", symbol), ("name", placeholderName symbol),
        ("source", "wind_error")]) ∧
    (∀ e : PyErr, (get_stock_info true (Except.error e) symbol).1 =
      [("symbol", symbol), ("name", placeholderName symbol),
        ("source", "wind_error")]) ∧
    (∀ wd : WindData, wd.errorCode ≠ 0 →
      (get_stock_info true (Except.ok wd) symbol).1 =
      [("symbol", symbol), ("name", placeholderName symbol),
        ("source", "wind")]) ∧
    (∀ wd : WindData, wd.data = none →
      (get_stock_info true (Except.ok wd) symbol).1 =
      [("symbol", symbol), ("name", placeholderName symbol),
        ("source", "wind")]) ∧
    (∀ wd dcols, wd.data = some dcols →
      dfIsEmpty (windToDF wd.fields dcols) = true →
      (get_stock_info true (Except.ok wd) symbol).1 =
      [("symbol", symbol), ("name", placeholderName symbol),
        ("source", "wind")]) := by
  refine ⟨fun _ => rfl, fun _ => rfl, ?_, ?_, ?_⟩
  · intro wd h
    cases hd : wd.data with
    | none => simp [get_stock_info, hd]
    | some dcols => simp [get_stock_info, hd, h]
  · intro wd h
    simp [get_stock_info, h]
  · intro wd dcols hd he
    by_cases hc : wd.errorCode = 0 <;> simp [get_stock_info, hd, hc, he]

/-- C6 (amended) witness: the theorem at symbol `"000001"` with a non-zero
remote status and with an empty payload. -/
theorem info_failure_reduced_mapping_witness :
    (get_stock_info true (Except.ok ⟨(-40522 : Int), some [["600000"]],
      ["TRADE_CODE"], []⟩) "000001").1 =
      [("symbol", "000001"), ("name", "股票000001"), ("source", "wind")] ∧
    (get_stock_info true (Except.ok ⟨0, some [], [], []⟩) "000001").1 =
      [("symbol", "000001"), ("name", "股票000001"), ("source", "wind")] := by
  have h := info_failure_reduced_mapping "000001"
  exact ⟨h.2.2.1 _ (by decide), h.2.2.2.2 _ [] rfl (by decide)⟩

/-- C10: `get_financial_data` distinguishes connection failure from
statement failure by shape — a failed connection check yields the keyless
empty mapping, while after a successful check the mapping carries exactly
the keys balance_sheet, income_statement, cash_flow in insertion order,
whatever the three statement outcomes are. -/
theorem financial_snapshot_key_shape :
    (∀ rB rI rC, (get_financial_data false rB rI rC).1 = []) ∧
    (∀ rB rI rC, ((get_financial_data true rB rI rC).1).map Prod.fst =
      ["balance_sheet", "income_statement", "cash_flow"]) := by
  have e1 : (("balance_sheet" : String) == "income_statement") = false := by decide
  have e2 : (("balance_sheet" : String) == "cash_flow") = false := by decide
  have e3 : (("income_statement" : String) == "cash_flow") = false := by decide
  refine ⟨fun _ _ _ => rfl, ?_⟩
  intro rB rI rC
  simp [get_financial_data, dictSet, e1, e2, e3]

/-- Column presence is membership of the name list. -/
theorem hasCol_iff_mem (df : DataFrame) (c : String) :
    hasCol df c = true ↔ c ∈ df.cols.map Prod.fst := by
  simp [hasCol, List.any_eq_true, List.mem_map, beq_iff_eq]

/-- A column assignment keeps every existing name and makes `n` present. -/
theorem setCol_names (df : DataFrame) (n : String) (v : List String) :
    (setCol df n v).cols.map Prod.fst =
      if hasCol df n then df.cols.map Prod.fst
      else df.cols.map Prod.fst ++ [n] := by
  unfold setCol
  by_cases h : hasCol df n
  · simp only [h, if_true]
    rw [List.map_map]
    apply List.map_congr_left
    intro p _
    by_cases hp : p.1 = n
    · simp [hp]
    · simp [hp]
  · simp [h]

/-- Column presence survives any column assignment. -/
theorem hasCol_setCol_mono (df : DataFrame) (n c : String) (v : List String)
    (h : hasCol df c = true) : hasCol (setCol df n v) c = true := by
  rw [hasCol_iff_mem] at h ⊢
  rw [setCol_names]
  by_cases hn : hasCol df n
  · simp [hn, h]
  · simp [hn, h]

/-- The assigned column is present after the assignment. -/
theorem hasCol_setCol_self (df : DataFrame) (n : String) (v : List String) :
    hasCol (setCol df n v) n = true := by
  rw [hasCol_iff_mem, setCol_names]
  by_cases hn : hasCol df n
  · simp only [hn, if_true]
    exact (hasCol_iff_mem df n).1 hn
  · simp [hn]

/-- Column presence survives the whole translation loop. -/
theorem hasCol_applyColumnMapping_mono (m : List (String × String))
    (df : DataFrame) (c : String) (h : hasCol df c = true) :
    hasCol (applyColumnMapping m df) c = true := by
  induction m generalizing df with
  | nil => exact h
  | cons q rest ih =>
    unfold applyColumnMapping at *
    rw [List.foldl_cons]
    cases hg : getCol df q.1 with
    | none => simp only [hg]; exact ih df h
    | some v => simp only [hg]; exact ih _ (hasCol_setCol_mono df q.2 c v h)

/-- When the source column of a mapping pair is present, the translation
loop makes the target column present. -/
theorem hasCol_applyColumnMapping_target (m : List (String × String))
    (df : DataFrame) (old neu : String) (hmem : (old, neu) ∈ m)
    (h : hasCol df old = true) :
    hasCol (applyColumnMapping m df) neu = true := by
  induction m generalizing df with
  | nil => exact absurd hmem (List.not_mem_nil _)
  | cons q rest ih =>
    unfold applyColumnMapping at *
    rw [List.foldl_cons]
    rcases List.mem_cons.1 hmem with heq | hrest
    · obtain ⟨v, hv⟩ := getCol_of_hasCol df old h
      rw [← heq]
      simp only [hv]
      exact hasCol_applyColumnMapping_mono rest _ neu
        (hasCol_setCol_self df neu v)
    · cases hg : getCol df q.1 with
      | none => exact ih _ hrest h
      | some v => exact ih _ hrest (hasCol_setCol_mono df q.2 old v h)

/-- Every vendor field names a column of the transposed payload. -/
theorem hasCol_windToDF (fields : List String) (dcols : List (List String))
    (f : String) (hf : f ∈ fields) (hlen : fields.length ≤ dcols.length) :
    hasCol (windToDF fields dcols) f = true := by
  rw [hasCol_iff_mem]
  unfold windToDF
  rw [List.map_fst_zip fields dcols hlen]
  exact hf

/-- C7: column translation in the daily-bars reshape is additive — for a
non-empty payload (within the region where the pandas reshape does not
raise: field names distinct, not colliding with the fresh `trade_date`
column, and one data column per field) the resulting table keeps every
original vendor column and also carries the canonical target column of
every recognized vendor field. -/
theorem daily_translation_additive (wd : WindData) (dcols : List (List String))
    (symbol : String) (hcode : wd.errorCode = 0) (hdata : wd.data = some dcols)
    (hne : 0 < dcols.length) (hlen : wd.fields.length ≤ dcols.length)
    (_hnodup : wd.fields.Nodup) (_htd : "trade_date" ∉ wd.fields) :
    (∀ f ∈ wd.fields,
      hasCol (get_stock_daily true (Except.ok wd) symbol).1 f = true) ∧
    (∀ old neu, (old, neu) ∈ dailyColumnMapping → old ∈ wd.fields →
      hasCol (get_stock_daily true (Except.ok wd) symbol).1 neu = true) := by
  have hres : (get_stock_daily true (Except.ok wd) symbol).1 =
      reshapeDaily wd dcols (_normalize_symbol symbol) := by
    simp [get_stock_daily, hcode, hdata, hne]
  have hcons : ∀ (d : DataFrame) (nm : String) (vs : List String) (c : String),
      hasCol d c = true → hasCol ⟨(nm, vs) :: d.cols⟩ c = true := by
    intro d nm vs c hc
    simp only [hasCol, List.any_cons] at *
    rw [hc]
    simp
  constructor
  · intro f hf
    rw [hres]
    unfold reshapeDaily
    apply hcons
    apply hasCol_setCol_mono
    apply hasCol_applyColumnMapping_mono
    exact hasCol_windToDF wd.fields dcols f hf hlen
  · intro old neu hmem hf
    rw [hres]
    unfold reshapeDaily
    apply hcons
    apply hasCol_setCol_mono
    apply hasCol_applyColumnMapping_target _ _ old neu hmem
    exact hasCol_windToDF wd.fields dcols old hf hlen

/-- C7 witness: the theorem at the payload shape the adapter requests
(uppercase vendor fields, two rows), checking the translated `close` and
the preserved vendor column `CLOSE`. -/
theorem daily_translation_additive_witness :
    hasCol (get_stock_daily true (Except.ok ⟨0,
      some [["10.0", "10.2"], ["10.1", "10.3"]], ["OPEN", "CLOSE"],
      ["2024-01-02", "2024-01-03"]⟩) "000001").1 "close" = true ∧
    hasCol (get_stock_daily true (Except.ok ⟨0,
      some [["10.0", "10.2"], ["10.1", "10.3"]], ["OPEN", "CLOSE"],
      ["2024-01-02", "2024-01-03"]⟩) "000001").1 "CLOSE" = true := by
  have h := daily_translation_additive
    ⟨0, some [["10.0", "10.2"], ["10.1", "10.3"]], ["OPEN", "CLOSE"],
      ["2024-01-02", "2024-01-03"]⟩
    [["10.0", "10.2"], ["10.1", "10.3"]] "000001" rfl rfl (by decide)
    (by decide) (by decide) (by decide)
  exact ⟨h.2 "CLOSE" "close" (by decide) (by decide),
    h.1 "CLOSE" (by decide)⟩

/-- Pointwise agreement of the code's cell test with the spec's substring
test on a present column, for metacharacter-free keywords. -/
theorem colCell_eq_specCell (sl : DataFrame) (n : String) (vs : List String)
    (kw : String) (i : Nat) (h : getCol sl n = some vs)
    (hmeta : ∀ c ∈ kw.data, c ∉ regexMetaChars) :
    colCellMatches vs kw i = specCellMatches sl n kw i := by
  unfold colCellMatches specCellMatches
  rw [h]
  cases hv : vs[i]? with
  | none => simp [hv]
  | some v => simp [hv, pdStrContains_eq_sub kw v hmeta]

/-- C8 counterexample: the keyword is compiled as a regular expression, not
matched as a plain substring — with keyword `A.C` the search keeps the row
named `ABC` (the dot matches any character) although no cell of that row
contains `A.C` as a substring, so the result is not the substring subset of
the symbol-list table. -/
theorem search_regex_not_substring :
    (search_stocks true (some ⟨[("name", ["ABC"]), ("symbol", ["000001"]),
        ("ts_code", ["000001.SZ"])]⟩) (Except.error "unused") "A.C").1 =
      ⟨[("name", ["ABC"]), ("symbol", ["000001"]), ("ts_code", ["000001.SZ"])]⟩ ∧
    searchSpecFilter ⟨[("name", ["ABC"]), ("symbol", ["000001"]),
        ("ts_code", ["000001.SZ"])]⟩ "A.C" =
      ⟨[("name", []), ("symbol", []), ("ts_code", [])]⟩ ∧
    (search_stocks true (some ⟨[("name", ["ABC"]), ("symbol", ["000001"]),
        ("ts_code", ["000001.SZ"])]⟩) (Except.error "unused") "A.C").1 ≠
      searchSpecFilter (get_stock_list true (some ⟨[("name", ["ABC"]),
        ("symbol", ["000001"]), ("ts_code", ["000001.SZ"])]⟩)
        (Except.error "unused")).1 "A.C" := by
  refine ⟨by decide, by decide, by decide⟩

/-- C8 (amended): keyword search filters the symbol-list table with the
keyword compiled as a regular expression; for every keyword free of regex
metacharacters this coincides with the case-sensitive substring filter over
the name, bare-code and qualified-code columns (provided the symbol list is
non-empty and carries those columns), and whenever the symbol list is empty
the search returns an empty table. -/
theorem search_matches_substring_subset (cached : Option DataFrame)
    (resp : Except PyErr WindData) (kw : String)
    (hmeta : ∀ c ∈ kw.data, c ∉ regexMetaChars)
    (hne : dfIsEmpty (get_stock_list true cached resp).1 = false)
    (hn : hasCol (get_stock_list true cached resp).1 "name" = true)
    (hs : hasCol (get_stock_list true cached resp).1 "symbol" = true)
    (ht : hasCol (get_stock_list true cached resp).1 "ts_code" = true) :
    (search_stocks true cached resp kw).1 =
      searchSpecFilter (get_stock_list true cached resp).1 kw ∧
    (∀ cached2 resp2 kw2,
      dfIsEmpty (get_stock_list true cached2 resp2).1 = true →
      (search_stocks true cached2 resp2 kw2).1 = emptyDF) := by
  constructor
  · obtain ⟨ns, hns⟩ := getCol_of_hasCol _ _ hn
    obtain ⟨ss, hss⟩ := getCol_of_hasCol _ _ hs
    obtain ⟨ts, hts⟩ := getCol_of_hasCol _ _ ht
    unfold search_stocks
    simp only [Bool.not_true, Bool.false_eq_true, if_false, hne, hns, hss, hts]
    unfold searchSpecFilter
    congr 1
    apply List.map_congr_left
    intro i _
    rw [colCell_eq_specCell _ _ _ kw i hns hmeta,
      colCell_eq_specCell _ _ _ kw i hss hmeta,
      colCell_eq_specCell _ _ _ kw i hts hmeta]
  · intro cached2 resp2 kw2 h2
    unfold search_stocks
    simp only [Bool.not_true, Bool.false_eq_true, if_false, h2, if_true]

/-- C8 (amended) witness: the theorem at a one-row symbol list and the
metacharacter-free keyword `000001`. -/
theorem search_matches_substring_subset_witness :
    (search_stocks true (some ⟨[("name", ["PingAn"]), ("symbol", ["000001"]),
        ("ts_code", ["000001.SZ"])]⟩) (Except.error "unused") "000001").1 =
      searchSpecFilter (get_stock_list true (some ⟨[("name", ["PingAn"]),
        ("symbol", ["000001"]), ("ts_code", ["000001.SZ"])]⟩)
        (Except.error "unused")).1 "000001" :=
  (search_matches_substring_subset
    (some ⟨[("name", ["PingAn"]), ("symbol", ["000001"]),
      ("ts_code", ["000001.SZ"])]⟩) (Except.error "unused") "000001"
    (by decide) (by decide) (by decide) (by decide) (by decide)).1
